import Mathlib

/-!
# Verification of the product-risk analysis pipeline (`analyzer.py`)

Shallow embedding of the core pipeline of the repository: identifier
extraction (`extract_asin`), the retrying marketplace scraper
(`get_amazon_seller_info`), soft-block detection (`_looks_like_captcha`),
JSON payload extraction from model output (`_extract_json`), and the
orchestrator (`analyze_product`).

Modelling conventions:
* Strings are treated at the character level (`List Char`); character
  classes (`[A-Z0-9]`, `\w`, whitespace) are modelled over ASCII, matching
  the inputs the pipeline is designed for.
* Network and HTML-parsing collaborators (`requests.get`, BeautifulSoup,
  the generative-model client) are oracles passed in as parameters; the
  control flow around them (retry loop, exception handling, sentinel
  encoding) is translated faithfully from the source.
* Python exceptions are modelled with `Except`/sum types; `time.sleep`
  and attempt boundaries are recorded as events in a trace so that
  retry/sleep counting claims can be stated.
* Python `float` values inside JSON are kept as their raw numeric token
  (floating point itself is out of scope); no claim depends on them.
-/

/-! ## Character-level helpers (Python `str` methods over ASCII) -/

/-- The characters removed by Python `str.strip()` (ASCII whitespace). -/
def isPySpace (c : Char) : Bool :=
  c = ' ' || c = '\t' || c = '\n' || c = '\x0d' || c = '\x0b' || c = '\x0c'

/-- Python `str.strip()`: drop whitespace from both ends. -/
def pyStrip (l : List Char) : List Char :=
  ((l.dropWhile isPySpace).reverse.dropWhile isPySpace).reverse

/-- ASCII lower-casing, as applied by `str.lower()` / `re.IGNORECASE`
on the characters the pipeline handles. -/
def pyLowerChar (c : Char) : Char :=
  if 'A' ≤ c ∧ c ≤ 'Z' then Char.ofNat (c.toNat + 32) else c

/-- ASCII upper-casing, as applied by `str.upper()` on regex groups. -/
def pyUpperChar (c : Char) : Char :=
  if 'a' ≤ c ∧ c ≤ 'z' then Char.ofNat (c.toNat - 32) else c

/-- The character class `[A-Z0-9]` under `re.IGNORECASE`. -/
def isAlnumA (c : Char) : Bool :=
  ('A' ≤ c && c ≤ 'Z') || ('a' ≤ c && c ≤ 'z') || ('0' ≤ c && c ≤ '9')

/-- Regex word character `\w` (ASCII): letters, digits, underscore. -/
def isWordChar (c : Char) : Bool :=
  isAlnumA c || c = '_'

/-- Upper-case letters and digits: the alphabet of canonical codes. -/
def isUpperAlnum (c : Char) : Bool :=
  ('A' ≤ c && c ≤ 'Z') || ('0' ≤ c && c ≤ '9')

/-- Fuel-driven core of Python `str.replace(pat, "")`: remove every
left-to-right non-overlapping occurrence of `pat`. -/
def replAux (pat : List Char) : Nat → List Char → List Char
  | _, [] => []
  | 0, l => l
  | f + 1, c :: rest =>
    if pat ≠ [] && pat.isPrefixOf (c :: rest) then
      replAux pat f ((c :: rest).drop pat.length)
    else
      c :: replAux pat f rest

/-- Python `s.replace(pat, "")`. -/
def listRemoveAll (pat l : List Char) : List Char :=
  replAux pat l.length l

/-! ## Identifier Extractor (`extract_asin`, analyzer.py lines 40-50) -/

/-- Does the regex `/dp/([A-Z0-9]{10})` (IGNORECASE) match at the head of
`l`?  (The literal `/dp/` followed by exactly ten alphanumerics.) -/
def dpHere (l : List Char) : Bool :=
  match l with
  | a :: d :: p :: b :: rest =>
    a = '/' && pyLowerChar d = 'd' && pyLowerChar p = 'p' && b = '/' &&
      decide (10 ≤ rest.length) && (rest.take 10).all isAlnumA
  | _ => false

/-- Leftmost-match scan for `/dp/([A-Z0-9]{10})`, returning the captured
group (the ten characters after `/dp/`). -/
def dpScan : List Char → Option (List Char)
  | [] => none
  | c :: rest =>
    if dpHere (c :: rest) then some (((c :: rest).drop 4).take 10)
    else dpScan rest

/-- Does `\b([A-Z0-9]{10})\b` match at the head of `l`, where `prevW`
says whether the character before `l` is a word character (`false` at the
start of the string)? -/
def tokHere (prevW : Bool) (l : List Char) : Bool :=
  !prevW && decide (10 ≤ l.length) && (l.take 10).all isAlnumA &&
    (match l.drop 10 with
     | [] => true
     | c :: _ => !isWordChar c)

/-- Leftmost-match scan for `\b([A-Z0-9]{10})\b`, threading whether the
previous character was a word character. -/
def tokScan (prevW : Bool) : List Char → Option (List Char)
  | [] => none
  | c :: rest =>
    if tokHere prevW (c :: rest) then some ((c :: rest).take 10)
    else tokScan (isWordChar c) rest

/-- `extract_asin` (analyzer.py lines 40-50): falsy input yields `None`;
otherwise strip, search `/dp/([A-Z0-9]{10})` first, then
`\b([A-Z0-9]{10})\b`, upper-casing the captured group. -/
def extract_asin (value : String) : Option String :=
  if value = "" then none
  else
    let s := pyStrip value.toList
    match dpScan s with
    | some g => some (String.mk (g.map pyUpperChar))
    | none =>
      match tokScan false s with
      | some g => some (String.mk (g.map pyUpperChar))
      | none => none

/-! ### Spec-side reformulation of the Identifier Extractor (§4.1)

The spec describes the extractor positionally: "search for a
path-embedded form `/dp/<10 alnum>`; if found return it upper-cased,
else search for any standalone 10-character token bounded by word
boundaries".  We state that as: the first position (if any) at which the
pattern matches, using `List.find?` over all positions. -/

/-- A `/dp/<10 alnum>` match occurs at position `i`. -/
def dpMatchAt (l : List Char) (i : Nat) : Bool :=
  dpHere (l.drop i)

/-- Is the character just before position `i` a word character
(`false` at the start)? -/
def prevWordAt (l : List Char) (i : Nat) : Bool :=
  match i with
  | 0 => false
  | j + 1 =>
    match l.get? j with
    | some c => isWordChar c
    | none => false

/-- A standalone word-bounded 10-character alphanumeric token starts at
position `i`. -/
def tokMatchAt (l : List Char) (i : Nat) : Bool :=
  tokHere (prevWordAt l i) (l.drop i)

/-- Spec-side extractor (§4.1 of the spec, stated declaratively):
take the first position with a path-embedded match, else the first
position with a standalone token match, else absence. -/
def extractAsinSpec (value : String) : Option String :=
  if value = "" then none
  else
    let l := pyStrip value.toList
    match (List.range l.length).find? (dpMatchAt l) with
    | some i => some (String.mk (((l.drop i).drop 4).take 10 |>.map pyUpperChar))
    | none =>
      match (List.range l.length).find? (tokMatchAt l) with
      | some i => some (String.mk ((l.drop i).take 10 |>.map pyUpperChar))
      | none => none

/-! ## Soft-block detector (`_looks_like_captcha`, analyzer.py lines 69-79) -/

/-- Substring test (`in` on Python strings). -/
def containsSub (pat : List Char) : List Char → Bool
  | [] => pat.isEmpty
  | c :: rest => pat.isPrefixOf (c :: rest) || containsSub pat rest

/-- `_looks_like_captcha`: lower-case the body and look for known
block-page marker phrases.  The final clause mirrors Python operator
precedence: `... or ("captcha" in lower and "amazon" in lower)`. -/
def _looks_like_captcha (html : String) : Bool :=
  if html = "" then false
  else
    let lower := html.toList.map pyLowerChar
    containsSub "type the characters".toList lower ||
    containsSub "enter the characters".toList lower ||
    containsSub "automated access".toList lower ||
    containsSub "/errors/validatecaptcha".toList lower ||
    (containsSub "captcha".toList lower && containsSub "amazon".toList lower)

/-! ## Marketplace Scraper (`get_amazon_seller_info`, analyzer.py lines 82-120)

`requests.get` + `raise_for_status` is an oracle `fetch : Nat → FetchOutcome`
(indexed by attempt number): either a `RequestException` carrying the
exception class name, or a 2xx response body.  The BeautifulSoup section
is an oracle `parse : String → HtmlParse`: either the texts of the
byline/merchant elements (each possibly missing), or a raised exception
rendered as its `str`. -/

/-- Outcome of one `requests.get(...)` + `raise_for_status()` call. -/
inductive FetchOutcome where
  | reqErr (clsName : String)
  | ok (body : String)

/-- Outcome of the BeautifulSoup element-extraction block. -/
inductive HtmlParse where
  | ok (bylineText : Option String) (merchantText : Option String)
  | exn (msg : String)

/-- Observable events of one scraper call. -/
inductive ScrapeEvent where
  | fetchAttempt
  | sleepJitter
  | parseHtml
  deriving DecidableEq, Repr

/-- Brand post-processing (analyzer.py lines 102-104): fall back to
`"Brand Not Found"`, then strip the `"Visit the "` / `" Store"`
decoration and surrounding whitespace. -/
def brandOf (bylineText : Option String) : String :=
  let b := match bylineText with
    | some t => t
    | none => "Brand Not Found"
  String.mk (pyStrip (listRemoveAll " Store".toList
    (listRemoveAll "Visit the ".toList b.toList)))

/-- Seller post-processing (analyzer.py lines 106-107). -/
def soldByOf (merchantText : Option String) : String :=
  match merchantText with
  | some t => t
  | none => "Sold By Not Found"

/-- Sentinel for a network failure after exhausting retries
(analyzer.py line 116). -/
def netFailMsg (clsName : String) : String :=
  "爬虫失败 (" ++ clsName ++ ")"

/-- Sentinel for a non-network exception (analyzer.py line 118). -/
def parseFailMsg (msg : String) : String :=
  "解析失败: " ++ msg

/-- The retry loop `for attempt in range(cfg.max_retries)` of
`get_amazon_seller_info`, unrolled on the number of remaining
iterations (`rem` = `maxRetries - attempt` at every call).  Returns the
`(brand, seller)` pair together with the event trace of the call. -/
def scrapeGo (fetch : Nat → FetchOutcome) (parse : String → HtmlParse)
    (maxRetries : Nat) : Nat → Nat → (String × String) × List ScrapeEvent
  | _, 0 => (("爬虫失败 (超出重试次数)", "爬虫失败 (超出重试次数)"), [])
  | attempt, rem + 1 =>
    match fetch attempt with
    | .ok body =>
      if _looks_like_captcha body then
        (("Captcha Blocked", "Captcha Blocked"), [.fetchAttempt])
      else
        match parse body with
        | .exn msg =>
          ((parseFailMsg msg, parseFailMsg msg), [.fetchAttempt, .parseHtml])
        | .ok be se =>
          ((brandOf be, soldByOf se),
            [.fetchAttempt, .parseHtml, .sleepJitter])
    | .reqErr clsName =>
      if attempt < maxRetries - 1 then
        let r := scrapeGo fetch parse maxRetries (attempt + 1) rem
        (r.1, .fetchAttempt :: .sleepJitter :: r.2)
      else
        ((netFailMsg clsName, netFailMsg clsName), [.fetchAttempt])

/-- `get_amazon_seller_info` (analyzer.py lines 82-120), with the network
and HTML collaborators as oracles.  Total: every Python exception inside
the loop is caught by one of the two `except` clauses. -/
def get_amazon_seller_info (fetch : Nat → FetchOutcome)
    (parse : String → HtmlParse) (maxRetries : Nat) :
    (String × String) × List ScrapeEvent :=
  scrapeGo fetch parse maxRetries 0 maxRetries

/-! ## JSON model (Python `json.loads` over the model's value domain)

`json.loads` parses into Python values.  The model keeps `float` tokens
unevaluated (see the header); objects are association lists built by
insertion, mirroring `dict` construction (duplicate keys keep the first
position, last value).  Lone surrogate `\uXXXX` escapes (which CPython
tolerates) are rejected, since Lean `Char` holds only scalar values; no
claim involves them. -/

/-- A parsed JSON value. -/
inductive JVal where
  | null
  | bool (b : Bool)
  | int (n : Int)
  | float (tok : String)
  | str (s : String)
  | arr (xs : List JVal)
  | obj (fields : List (String × JVal))

/-- The opening brace character (written by code point to keep the
character out of string literals). -/
def lbrace : Char := Char.ofNat 123

/-- The closing brace character. -/
def rbrace : Char := Char.ofNat 125

/-- JSON inter-token whitespace (the scanner's `_w`). -/
def jIsWs (c : Char) : Bool :=
  c = ' ' || c = '\t' || c = '\n' || c = '\x0d'

/-- Skip JSON whitespace. -/
def jSkipWs (l : List Char) : List Char :=
  l.dropWhile jIsWs

/-- Hexadecimal digit value. -/
def hexVal (c : Char) : Option Nat :=
  if '0' ≤ c && c ≤ '9' then some (c.toNat - 48)
  else if 'a' ≤ c && c ≤ 'f' then some (c.toNat - 87)
  else if 'A' ≤ c && c ≤ 'F' then some (c.toNat - 55)
  else none

/-- Parse four hex digits of a `\uXXXX` escape. -/
def parseHex4 : List Char → Option (Nat × List Char)
  | a :: b :: c :: d :: rest =>
    match hexVal a, hexVal b, hexVal c, hexVal d with
    | some x, some y, some z, some w => some (((x * 16 + y) * 16 + z) * 16 + w, rest)
    | _, _, _, _ => none
  | _ => none

/-- String-body scanner (`py_scanstring`, strict mode): called after the
opening quote, returns the decoded characters and the input after the
closing quote. -/
def parseStringBody : Nat → List Char → Except String (List Char × List Char)
  | 0, _ => .error "fuel exhausted"
  | _ + 1, [] => .error "Unterminated string starting at"
  | f + 1, c :: rest =>
    if c = '"' then .ok ([], rest)
    else if c = '\\' then
      match rest with
      | [] => .error "Unterminated string starting at"
      | e :: rest2 =>
        if e = 'u' then
          match parseHex4 rest2 with
          | none => .error "Invalid \\uXXXX escape"
          | some (code, rest3) =>
            if 0xD800 ≤ code && code < 0xDC00 then
              match rest3 with
              | '\\' :: 'u' :: rest4 =>
                match parseHex4 rest4 with
                | some (low, rest5) =>
                  if 0xDC00 ≤ low && low < 0xE000 then
                    match parseStringBody f rest5 with
                    | .error m => .error m
                    | .ok (s, r) =>
                      .ok (Char.ofNat (0x10000 + (code - 0xD800) * 0x400 + (low - 0xDC00)) :: s, r)
                  else .error "lone surrogate escape not modelled"
                | none => .error "Invalid \\uXXXX escape"
              | _ => .error "lone surrogate escape not modelled"
            else if 0xDC00 ≤ code && code < 0xE000 then
              .error "lone surrogate escape not modelled"
            else
              match parseStringBody f rest3 with
              | .error m => .error m
              | .ok (s, r) => .ok (Char.ofNat code :: s, r)
        else
          match
            (if e = '"' then some '"'
             else if e = '\\' then some '\\'
             else if e = '/' then some '/'
             else if e = 'b' then some '\x08'
             else if e = 'f' then some '\x0c'
             else if e = 'n' then some '\n'
             else if e = 'r' then some '\x0d'
             else if e = 't' then some '\t'
             else none) with
          | none => .error "Invalid \\escape"
          | some d =>
            match parseStringBody f rest2 with
            | .error m => .error m
            | .ok (s, r) => .ok (d :: s, r)
    else if c.toNat < 0x20 then
      .error "Invalid control character"
    else
      match parseStringBody f rest with
      | .error m => .error m
      | .ok (s, r) => .ok (c :: s, r)

/-- Decimal digit test. -/
def isDigitC (c : Char) : Bool := '0' ≤ c && c ≤ '9'

/-- Digits to a natural number. -/
def digitsToNat (ds : List Char) : Nat :=
  ds.foldl (fun n c => n * 10 + (c.toNat - 48)) 0

/-- The scanner's `NUMBER_RE`:
`(-?(?:0|[1-9]\d*))(\.\d+)?([eE][-+]?\d+)?`.  Returns the parsed value
(`int` when neither fraction nor exponent was consumed, else a `float`
token) and the rest of the input; `none` when the regex does not match. -/
def parseNumber (l : List Char) : Option (JVal × List Char) :=
  let (neg, l1) := match l with
    | '-' :: r => (true, r)
    | _ => (false, l)
  match l1 with
  | [] => none
  | c :: r =>
    if c = '0' || (isDigitC c && c ≠ '0') then
      let intDigits := if c = '0' then [c] else (c :: r).takeWhile isDigitC
      let rest1 := if c = '0' then r else (c :: r).dropWhile isDigitC
      let (fracDigits, rest2) :=
        match rest1 with
        | '.' :: r2 =>
          let fd := r2.takeWhile isDigitC
          if fd.isEmpty then ([], rest1) else ('.' :: fd, r2.dropWhile isDigitC)
        | _ => ([], rest1)
      let (expDigits, rest3) :=
        match rest2 with
        | e :: r3 =>
          if e = 'e' || e = 'E' then
            let (sgn, r4) := match r3 with
              | '+' :: r5 => (['+'], r5)
              | '-' :: r5 => (['-'], r5)
              | _ => ([], r3)
            let ed := r4.takeWhile isDigitC
            if ed.isEmpty then ([], rest2)
            else (e :: (sgn ++ ed), r4.dropWhile isDigitC)
          else ([], rest2)
        | [] => ([], rest2)
      if fracDigits.isEmpty && expDigits.isEmpty then
        let n : Int := Int.ofNat (digitsToNat intDigits)
        some (.int (if neg then -n else n), rest1)
      else
        some (.float (String.mk ((if neg then ['-'] else []) ++
          intDigits ++ fracDigits ++ expDigits)), rest3)
    else none

/-- `dict` insertion: an existing key keeps its position and takes the
new value, a new key is appended. -/
def objInsert (fields : List (String × JVal)) (k : String) (v : JVal) :
    List (String × JVal) :=
  match fields with
  | [] => [(k, v)]
  | (k0, v0) :: rest =>
    if k0 = k then (k, v) :: rest else (k0, v0) :: objInsert rest k v

mutual

/-- JSON value scanner (`scan_once`): dispatch on the first character of
the (whitespace-skipped) input. -/
def parseJValue : Nat → List Char → Except String (JVal × List Char)
  | 0, _ => .error "fuel exhausted"
  | f + 1, l =>
    match l with
    | [] => .error "Expecting value"
    | c :: rest =>
      if c = '"' then
        match parseStringBody (rest.length + 1) rest with
        | .error m => .error m
        | .ok (s, r) => .ok (.str (String.mk s), r)
      else if c = lbrace then
        let l1 := jSkipWs rest
        match l1 with
        | d :: r1 =>
          if d = rbrace then .ok (.obj [], r1)
          else parseJMembers f [] l1
        | [] => .error "Expecting property name enclosed in double quotes"
      else if c = '[' then
        let l1 := jSkipWs rest
        match l1 with
        | ']' :: r1 => .ok (.arr [], r1)
        | _ => parseJItems f [] l1
      else if "null".toList.isPrefixOf l then .ok (.null, l.drop 4)
      else if "true".toList.isPrefixOf l then .ok (.bool true, l.drop 4)
      else if "false".toList.isPrefixOf l then .ok (.bool false, l.drop 5)
      else if "NaN".toList.isPrefixOf l then .ok (.float "nan", l.drop 3)
      else if "Infinity".toList.isPrefixOf l then .ok (.float "inf", l.drop 8)
      else if "-Infinity".toList.isPrefixOf l then .ok (.float "-inf", l.drop 9)
      else
        match parseNumber l with
        | some (v, r) => .ok (v, r)
        | none => .error "Expecting value"

/-- Object-member loop of `JSONObject`: the input starts at a key. -/
def parseJMembers (f : Nat) (acc : List (String × JVal)) (l : List Char) :
    Except String (JVal × List Char) :=
  match f with
  | 0 => .error "fuel exhausted"
  | f + 1 =>
    match l with
    | '"' :: r =>
      match parseStringBody (r.length + 1) r with
      | .error m => .error m
      | .ok (key, r1) =>
        match jSkipWs r1 with
        | ':' :: r2 =>
          match parseJValue f (jSkipWs r2) with
          | .error m => .error m
          | .ok (v, r3) =>
            let acc1 := objInsert acc (String.mk key) v
            match jSkipWs r3 with
            | ',' :: r4 => parseJMembers f acc1 (jSkipWs r4)
            | d :: r4 =>
              if d = rbrace then .ok (.obj acc1, r4)
              else .error "Expecting ',' delimiter"
            | [] => .error "Expecting ',' delimiter"
        | _ => .error "Expecting ':' delimiter"
    | _ => .error "Expecting property name enclosed in double quotes"

/-- Array-item loop of `JSONArray`: the input starts at a value. -/
def parseJItems (f : Nat) (acc : List JVal) (l : List Char) :
    Except String (JVal × List Char) :=
  match f with
  | 0 => .error "fuel exhausted"
  | f + 1 =>
    match parseJValue f l with
    | .error m => .error m
    | .ok (v, r) =>
      match jSkipWs r with
      | ',' :: r1 => parseJItems f (acc ++ [v]) (jSkipWs r1)
      | ']' :: r1 => .ok (.arr (acc ++ [v]), r1)
      | _ => .error "Expecting ',' delimiter"

end

/-- `json.loads` on a character list: skip leading whitespace, scan one
value, require only whitespace after it. -/
def jloadsL (l : List Char) : Except String JVal :=
  match parseJValue (2 * l.length + 2) (jSkipWs l) with
  | .error m => .error m
  | .ok (v, rest) =>
    if (jSkipWs rest).isEmpty then .ok v else .error "Extra data"

/-- `json.loads` on a string. -/
def json_loads (s : String) : Except String JVal :=
  jloadsL s.toList

/-! ## Response Extractor (`_extract_json`, analyzer.py lines 160-176) -/

/-- `"```json"` as characters. -/
def fenceJsonTok : List Char := "```json".toList

/-- `"```"` as characters. -/
def fenceTok : List Char := "```".toList

/-- `str.find(ch)`: index of the first occurrence of a character. -/
def findIdxChar (c : Char) : List Char → Option Nat
  | [] => none
  | d :: rest => if d = c then some 0 else (findIdxChar c rest).map Nat.succ

/-- Greedy prefix of `l` up to and including its last closing brace. -/
def takeToLastRbrace (l : List Char) : List Char :=
  (l.reverse.dropWhile (fun c => !(c = rbrace))).reverse

/-- The fallback `re.search(r"\{.*\}", cleaned, re.DOTALL)`: leftmost
opening brace followed (greedily) by the last closing brace after it. -/
def braceSpanSearch : List Char → Option (List Char)
  | [] => none
  | c :: rest =>
    if c = lbrace && rest.contains rbrace then
      some (c :: takeToLastRbrace rest)
    else braceSpanSearch rest

/-- `_extract_json` on characters: empty input raises; otherwise strip,
remove fence markers, slice from the first opening brace to the last
closing brace (or fall back to the greedy regex), and `json.loads` the
candidate.  A raised `JSONDecodeError` is the `.error` case. -/
def extractJsonL (l : List Char) : Except String JVal :=
  if l.isEmpty then .error "Empty response"
  else
    let cleaned := pyStrip (listRemoveAll fenceTok (listRemoveAll fenceJsonTok (pyStrip l)))
    let first? := findIdxChar lbrace cleaned
    let last? := (findIdxChar rbrace cleaned.reverse).map
      (fun i => cleaned.length - 1 - i)
    match first?, last? with
    | some si, some ei =>
      if ei ≤ si then
        match braceSpanSearch cleaned with
        | none => .error "JSON 匹配失败"
        | some span => jloadsL span
      else jloadsL ((cleaned.drop si).take (ei + 1 - si))
    | _, _ =>
      match braceSpanSearch cleaned with
      | none => .error "JSON 匹配失败"
      | some span => jloadsL span

/-- `_extract_json` (analyzer.py lines 160-176). -/
def _extract_json (text : String) : Except String JVal :=
  extractJsonL text.toList

/-! ## Python value rendering (`str(x)` / `", ".join(...)` on payload
values, analyzer.py lines 243-246)

`repr` of nested values is implemented in good faith for the common
cases (Python's `repr` of floats and of exotic string contents differs
in detail); no claim depends on the rendered text. -/

/-- Simplified Python `repr` of a string: single-quoted with the common
escapes. -/
def pyStrRepr (s : String) : String :=
  let esc := s.toList.foldr
    (fun c acc =>
      (if c = '\\' then ['\\', '\\']
       else if c = '\'' then ['\\', '\'']
       else if c = '\n' then ['\\', 'n']
       else if c = '\x0d' then ['\\', 'r']
       else if c = '\t' then ['\\', 't']
       else [c]) ++ acc) []
  String.mk ('\'' :: esc ++ ['\''])

mutual

/-- Python `repr` of a model value. -/
def pyRepr : JVal → String
  | .null => "None"
  | .bool true => "True"
  | .bool false => "False"
  | .int n => toString n
  | .float tok => tok
  | .str s => pyStrRepr s
  | .arr xs => "[" ++ pyReprList xs ++ "]"
  | .obj fs => String.mk [lbrace] ++ pyReprFields fs ++ String.mk [rbrace]

/-- Comma-joined `repr`s of list items. -/
def pyReprList : List JVal → String
  | [] => ""
  | [x] => pyRepr x
  | x :: y :: rest => pyRepr x ++ ", " ++ pyReprList (y :: rest)

/-- Comma-joined `repr`s of dict entries. -/
def pyReprFields : List (String × JVal) → String
  | [] => ""
  | [(k, v)] => pyStrRepr k ++ ": " ++ pyRepr v
  | (k, v) :: e :: rest => pyStrRepr k ++ ": " ++ pyRepr v ++ ", " ++ pyReprFields (e :: rest)

end

/-- Python `str(x)`: identity on strings, `repr` otherwise. -/
def pyStr (v : JVal) : String :=
  match v with
  | .str s => s
  | v => pyRepr v

/-- Python type name of a model value (used in the `AttributeError`
message when the payload is not a dict). -/
def pyTypeName : JVal → String
  | .null => "NoneType"
  | .bool _ => "bool"
  | .int _ => "int"
  | .float _ => "float"
  | .str _ => "str"
  | .arr _ => "list"
  | .obj _ => "dict"

/-! ## Image Fetcher (`download_image_as_pil`, analyzer.py lines 53-66) -/

/-- `download_image_as_pil` with the network/decode collaborator as an
oracle `fetchOk`: reject non-HTTP URLs immediately, otherwise report
whether a decoded image was obtained (absence on any failure). -/
def download_image_as_pil (url : String) (fetchOk : String → Bool) : Bool :=
  if url = "" || !("http".toList.isPrefixOf url.toList) then false
  else fetchOk url

/-! ## Risk Analyzer orchestrator (`analyze_product`, analyzer.py lines 183-268) -/

/-- Outcome of `client.models.generate_content(...)` followed by
`getattr(resp, "text", "")`: the model text, an `APIError`, or any other
exception (each rendered as its `str`). -/
inductive ModelOutcome where
  | ok (text : String)
  | apiError (msg : String)
  | exn (msg : String)

/-- Python truthiness of an optional string (`if brand_override or ...`):
`None` and `""` are falsy. -/
def pyTruthy (o : Option String) : Bool :=
  match o with
  | none => false
  | some s => !(s = "")

/-- `x or ""` on an optional string. -/
def pyOrEmpty (o : Option String) : String :=
  match o with
  | none => ""
  | some s => s

/-- Step 1 of the orchestrator (analyzer.py lines 195-202): resolve
`(brand, sold_by)` and record the arguments of every scraper
invocation. -/
def resolveBrandSold (asin : String) (brand_override sold_by_override : Option String)
    (fetch : Nat → FetchOutcome) (parse : String → HtmlParse) (maxRetries : Nat) :
    (String × String) × List String :=
  if pyTruthy brand_override || pyTruthy sold_by_override then
    ((pyOrEmpty brand_override, pyOrEmpty sold_by_override), [])
  else
    let asin_extracted := (extract_asin asin).getD asin
    if asin_extracted ≠ "" ∧ asin_extracted.length = 10 then
      ((get_amazon_seller_info fetch parse maxRetries).1, [asin_extracted])
    else
      (("待处理", "待处理"), [])

/-- The reasoning text of the extraction-failure record
(analyzer.py line 266). -/
def parseFailReason (e : String) (model_text : String) : String :=
  "分析失败。错误: " ++ e ++ ". 原始返回: " ++ model_text.take 300 ++ "..."

/-- `analyze_product` (analyzer.py lines 183-268).

Inputs: the `AnalysisRequest` fields, the override pair, and the external
collaborators as oracles (`fetch`/`parse` for the scraper, `imageOk` for
the image download, `modelResp` for the generative-model call; the
`api_key` and prompt text influence only those collaborators and are
absorbed into them).  Returns the output record as the ordered key/value
list of the Python dict, together with the list of scraper-invocation
arguments.  The function is total: every exception of the source is
caught on one of the modelled paths. -/
def analyze_product (asin : String) (image_url : Option String)
    (brand_override sold_by_override : Option String)
    (fetch : Nat → FetchOutcome) (parse : String → HtmlParse)
    (imageOk : String → Bool) (modelResp : ModelOutcome) (maxRetries : Nat) :
    List (String × JVal) × List String :=
  let r := resolveBrandSold asin brand_override sold_by_override fetch parse maxRetries
  let brand := r.1.1
  let sold_by := r.1.2
  let scrapeCalls := r.2
  let _image : Bool :=
    match image_url with
    | some u => if u ≠ "" then download_image_as_pil u imageOk else false
    | none => false
  match modelResp with
  | .apiError msg =>
    ([("Brand (Amazon)", .str brand),
      ("Sold By (Amazon)", .str sold_by),
      ("综合风险等级", .str "API ERROR"),
      ("是否符合要求", .str ""),
      ("主要风险类型", .str ""),
      ("风险规避建议", .str ""),
      ("分析理由", .str ("API ERROR: " ++ msg)),
      ("侵权溯源链接", .str "")], scrapeCalls)
  | .exn msg =>
    ([("Brand (Amazon)", .str brand),
      ("Sold By (Amazon)", .str sold_by),
      ("综合风险等级", .str "MODEL ERROR"),
      ("是否符合要求", .str ""),
      ("主要风险类型", .str ""),
      ("风险规避建议", .str ""),
      ("分析理由", .str ("MODEL ERROR: " ++ msg)),
      ("侵权溯源链接", .str "")], scrapeCalls)
  | .ok model_text =>
    match _extract_json model_text with
    | .ok (.obj fields) =>
      let jget := fun (k : String) (dflt : JVal) =>
        match fields.find? (fun e => e.1 = k) with
        | some e => e.2
        | none => dflt
      let risk_types := jget "主要风险类型" (.str "")
      let risk_types_str :=
        match risk_types with
        | .arr xs => String.intercalate ", " (xs.map pyStr)
        | v => pyStr v
      ([("Brand (Amazon)", .str brand),
        ("Sold By (Amazon)", .str sold_by),
        ("综合风险等级", jget "综合风险等级" (.str "解析失败")),
        ("是否符合要求", jget "是否符合要求" (.str "解析失败")),
        ("主要风险类型", .str risk_types_str),
        ("风险规避建议", jget "风险规避建议" (.str "")),
        ("分析理由", jget "分析理由" (.str model_text)),
        ("侵权溯源链接", .str "")], scrapeCalls)
    | .ok payload =>
      -- `payload.get(...)` raises `AttributeError` on a non-dict payload,
      -- caught by the same `except Exception` as a decode error.
      let e := "'" ++ pyTypeName payload ++ "' object has no attribute 'get'"
      ([("Brand (Amazon)", .str brand),
        ("Sold By (Amazon)", .str sold_by),
        ("综合风险等级", .str "AI失败/格式错误"),
        ("是否符合要求", .str ""),
        ("主要风险类型", .str ""),
        ("风险规避建议", .str ""),
        ("分析理由", .str (parseFailReason e model_text)),
        ("侵权溯源链接", .str "")], scrapeCalls)
    | .error e =>
      ([("Brand (Amazon)", .str brand),
        ("Sold By (Amazon)", .str sold_by),
        ("综合风险等级", .str "AI失败/格式错误"),
        ("是否符合要求", .str ""),
        ("主要风险类型", .str ""),
        ("风险规避建议", .str ""),
        ("分析理由", .str (parseFailReason e model_text)),
        ("侵权溯源链接", .str "")], scrapeCalls)

/-- The eight output-record field names, in insertion order
(spec §3 / §6). -/
def resultFieldNames : List String :=
  ["Brand (Amazon)", "Sold By (Amazon)", "综合风险等级", "是否符合要求",
   "主要风险类型", "风险规避建议", "分析理由", "侵权溯源链接"]

/-! ## Theorems -/

/-- C1: for every `AnalysisRequest` input and every combination of
scrape outcome, image presence, model-call outcome and response-parse
outcome, `analyze_product` returns a record with exactly the eight
documented fields in order, with the provenance-link field always the
empty string.  Totality of the definition embeds "never propagates an
exception to its caller". -/
theorem analyze_product_record_shape
    (asin : String) (image_url brand_override sold_by_override : Option String)
    (fetch : Nat → FetchOutcome) (parse : String → HtmlParse)
    (imageOk : String → Bool) (modelResp : ModelOutcome) (maxRetries : Nat) :
    (analyze_product asin image_url brand_override sold_by_override
        fetch parse imageOk modelResp maxRetries).1.map Prod.fst
      = resultFieldNames ∧
    (analyze_product asin image_url brand_override sold_by_override
        fetch parse imageOk modelResp maxRetries).1.getLast?
      = some ("侵权溯源链接", JVal.str "") := by
  unfold analyze_product resultFieldNames
  cases modelResp with
  | apiError msg => simp
  | exn msg => simp
  | ok model_text =>
    rcases h : _extract_json model_text with e | v
    · simp [h]
    · cases v <;> simp [h]

/-- C2: with `max_retries = 3` and a network call failing with a
request-level exception on every attempt, the scraper issues exactly 3
attempts, sleeps between consecutive attempts but not after the last,
and returns a sentinel pair embedding the failure marker and the class
name of the last error; totality embeds "never raises". -/
theorem scraper_retry_bound
    (fetch : Nat → FetchOutcome) (parse : String → HtmlParse) (cls : Nat → String)
    (hf : ∀ i, fetch i = .reqErr (cls i)) :
    get_amazon_seller_info fetch parse 3
      = ((netFailMsg (cls 2), netFailMsg (cls 2)),
         [.fetchAttempt, .sleepJitter, .fetchAttempt, .sleepJitter, .fetchAttempt]) := by
  simp [get_amazon_seller_info, scrapeGo, hf]

/-- Witness for C2 at a concrete always-failing fetch oracle. -/
theorem scraper_retry_bound_witness :
    get_amazon_seller_info (fun _ => FetchOutcome.reqErr "ConnectionError")
        (fun _ => HtmlParse.exn "x") 3
      = ((netFailMsg "ConnectionError", netFailMsg "ConnectionError"),
         [.fetchAttempt, .sleepJitter, .fetchAttempt, .sleepJitter, .fetchAttempt]) :=
  scraper_retry_bound _ _ (fun _ => "ConnectionError") (fun _ => rfl)

/-- C3: when the first response body trips the soft-block detector, the
scraper returns the soft-block sentinel pair on the first attempt: one
fetch event, no retry, no HTML parsing, no jitter sleep. -/
theorem scraper_softblock_short_circuit
    (fetch : Nat → FetchOutcome) (parse : String → HtmlParse)
    (maxRetries : Nat) (body : String)
    (hmr : 1 ≤ maxRetries) (h0 : fetch 0 = .ok body)
    (hc : _looks_like_captcha body = true) :
    get_amazon_seller_info fetch parse maxRetries
      = (("Captcha Blocked", "Captcha Blocked"), [.fetchAttempt]) := by
  obtain ⟨k, rfl⟩ : ∃ k, maxRetries = k + 1 := ⟨maxRetries - 1, by omega⟩
  simp [get_amazon_seller_info, scrapeGo, h0, hc]

/-- Witness for C3 at a concrete block-page body. -/
theorem scraper_softblock_short_circuit_witness :
    _looks_like_captcha "Sorry, please type the characters below" = true ∧
    get_amazon_seller_info (fun _ => FetchOutcome.ok "Sorry, please type the characters below")
        (fun _ => HtmlParse.exn "y") 5
      = (("Captcha Blocked", "Captcha Blocked"), [.fetchAttempt]) :=
  ⟨by decide,
   scraper_softblock_short_circuit _ _ 5 _ (by omega) rfl (by decide)⟩

/-- C9: the two components of the scraper's result pair never diverge in
success/failure state: either they are the identical sentinel string
(every failure exit), or the call reached the success exit, where the
pair is built from the two parsed page fields. -/
theorem scraper_pair_consistency
    (fetch : Nat → FetchOutcome) (parse : String → HtmlParse) (maxRetries : Nat) :
    (get_amazon_seller_info fetch parse maxRetries).1.1
      = (get_amazon_seller_info fetch parse maxRetries).1.2 ∨
    ∃ i body be se, fetch i = .ok body ∧ _looks_like_captcha body = false ∧
      parse body = .ok be se ∧
      (get_amazon_seller_info fetch parse maxRetries).1 = (brandOf be, soldByOf se) := by
  suffices H : ∀ rem attempt,
      (scrapeGo fetch parse maxRetries attempt rem).1.1
        = (scrapeGo fetch parse maxRetries attempt rem).1.2 ∨
      ∃ i body be se, fetch i = .ok body ∧ _looks_like_captcha body = false ∧
        parse body = .ok be se ∧
        (scrapeGo fetch parse maxRetries attempt rem).1 = (brandOf be, soldByOf se) by
    exact H maxRetries 0
  intro rem
  induction rem with
  | zero => intro attempt; left; rfl
  | succ n ih =>
    intro attempt
    cases hf : fetch attempt with
    | ok body =>
      by_cases hc : _looks_like_captcha body
      · left; simp [scrapeGo, hf, hc]
      · cases hp : parse body with
        | exn msg => left; simp [scrapeGo, hf, hc, hp]
        | ok be se =>
          right
          exact ⟨attempt, body, be, se, hf, by simpa using hc, hp,
            by simp [scrapeGo, hf, hc, hp]⟩
    | reqErr clsName =>
      by_cases hlt : attempt < maxRetries - 1
      · have := ih (attempt + 1)
        rcases this with h | ⟨i, body, be, se, h1, h2, h3, h4⟩
        · left; simp [scrapeGo, hf, hlt, h]
        · right; exact ⟨i, body, be, se, h1, h2, h3, by simp [scrapeGo, hf, hlt, h4]⟩
      · left; simp [scrapeGo, hf, hlt]

/-- Projection helper: on every exit path the orchestrator's scraper-call
list is the one of step 1, and the first two record entries carry the
resolved brand/seller. -/
theorem analyze_product_proj
    (asin : String) (image_url brand_override sold_by_override : Option String)
    (fetch : Nat → FetchOutcome) (parse : String → HtmlParse)
    (imageOk : String → Bool) (modelResp : ModelOutcome) (maxRetries : Nat) :
    (analyze_product asin image_url brand_override sold_by_override
        fetch parse imageOk modelResp maxRetries).2
      = (resolveBrandSold asin brand_override sold_by_override fetch parse maxRetries).2 ∧
    (analyze_product asin image_url brand_override sold_by_override
        fetch parse imageOk modelResp maxRetries).1[0]?
      = some ("Brand (Amazon)",
          JVal.str (resolveBrandSold asin brand_override sold_by_override fetch parse maxRetries).1.1) ∧
    (analyze_product asin image_url brand_override sold_by_override
        fetch parse imageOk modelResp maxRetries).1[1]?
      = some ("Sold By (Amazon)",
          JVal.str (resolveBrandSold asin brand_override sold_by_override fetch parse maxRetries).1.2) := by
  unfold analyze_product
  cases modelResp with
  | apiError msg => simp
  | exn msg => simp
  | ok model_text =>
    rcases h : _extract_json model_text with e | v
    · simp [h]
    · cases v <;> simp [h]

/-- C5 counterexample: on the raw identifier `"!!!!!!!!!!"` the extractor
resolves nothing, yet the orchestrator invokes the scraper — with the
raw non-canonical, non-alphanumeric identifier as argument — because the
code falls back to the raw field and only checks its length. -/
theorem asin_gating_cex :
    extract_asin "!!!!!!!!!!" = none ∧
    (analyze_product "!!!!!!!!!!" none none none
        (fun _ => FetchOutcome.reqErr "ConnectionError") (fun _ => HtmlParse.exn "x")
        (fun _ => false) (ModelOutcome.apiError "quota") 1).2 = ["!!!!!!!!!!"] := by
  exact ⟨rfl, rfl⟩

/-- C5 amended: without a truthy override, the scraper is invoked exactly
when the extracted identifier — or, if extraction fails, the raw
identifier field itself — is non-empty of length 10, and that string
(canonical only when extraction succeeded) is the scraper's argument;
otherwise brand and seller remain the pending sentinel and the scraper
is not invoked. -/
theorem asin_gating_amended
    (asin : String) (image_url brand_override sold_by_override : Option String)
    (fetch : Nat → FetchOutcome) (parse : String → HtmlParse)
    (imageOk : String → Bool) (modelResp : ModelOutcome) (maxRetries : Nat)
    (hov : (pyTruthy brand_override || pyTruthy sold_by_override) = false) :
    (((extract_asin asin).getD asin ≠ "" ∧ ((extract_asin asin).getD asin).length = 10) →
      (analyze_product asin image_url brand_override sold_by_override
          fetch parse imageOk modelResp maxRetries).2 = [(extract_asin asin).getD asin]) ∧
    (¬((extract_asin asin).getD asin ≠ "" ∧ ((extract_asin asin).getD asin).length = 10) →
      (analyze_product asin image_url brand_override sold_by_override
          fetch parse imageOk modelResp maxRetries).2 = [] ∧
      (analyze_product asin image_url brand_override sold_by_override
          fetch parse imageOk modelResp maxRetries).1[0]?
        = some ("Brand (Amazon)", JVal.str "待处理") ∧
      (analyze_product asin image_url brand_override sold_by_override
          fetch parse imageOk modelResp maxRetries).1[1]?
        = some ("Sold By (Amazon)", JVal.str "待处理")) := by
  obtain ⟨h2, h0, h1⟩ := analyze_product_proj asin image_url brand_override sold_by_override
    fetch parse imageOk modelResp maxRetries
  constructor
  · intro hcond
    rw [h2]
    simp only [resolveBrandSold, hov, Bool.false_eq_true, if_false]
    rw [if_pos hcond]
  · intro hcond
    refine ⟨?_, ?_, ?_⟩
    · rw [h2]
      simp only [resolveBrandSold, hov, Bool.false_eq_true, if_false]
      rw [if_neg hcond]
    · rw [h0]
      simp only [resolveBrandSold, hov, Bool.false_eq_true, if_false]
      rw [if_neg hcond]
    · rw [h1]
      simp only [resolveBrandSold, hov, Bool.false_eq_true, if_false]
      rw [if_neg hcond]

/-- Witness for the amended C5 at a concrete product URL and at a
non-resolving identifier. -/
theorem asin_gating_amended_witness :
    ((pyTruthy (none : Option String) || pyTruthy (none : Option String)) = false) ∧
    ((("B07XJ8C8F5" : String) ≠ "" ∧ ("B07XJ8C8F5" : String).length = 10) →
      (analyze_product "https://x/dp/b07xj8c8f5/ref=abc" none none none
          (fun _ => FetchOutcome.reqErr "ConnectionError") (fun _ => HtmlParse.exn "x")
          (fun _ => false) (ModelOutcome.apiError "quota") 1).2 = ["B07XJ8C8F5"]) ∧
    (¬((("B07XJ8C8F5" : String) ≠ "" ∧ ("B07XJ8C8F5" : String).length = 10)) →
      (analyze_product "https://x/dp/b07xj8c8f5/ref=abc" none none none
          (fun _ => FetchOutcome.reqErr "ConnectionError") (fun _ => HtmlParse.exn "x")
          (fun _ => false) (ModelOutcome.apiError "quota") 1).2 = [] ∧
      (analyze_product "https://x/dp/b07xj8c8f5/ref=abc" none none none
          (fun _ => FetchOutcome.reqErr "ConnectionError") (fun _ => HtmlParse.exn "x")
          (fun _ => false) (ModelOutcome.apiError "quota") 1).1[0]?
        = some ("Brand (Amazon)", JVal.str "待处理") ∧
      (analyze_product "https://x/dp/b07xj8c8f5/ref=abc" none none none
          (fun _ => FetchOutcome.reqErr "ConnectionError") (fun _ => HtmlParse.exn "x")
          (fun _ => false) (ModelOutcome.apiError "quota") 1).1[1]?
        = some ("Sold By (Amazon)", JVal.str "待处理")) :=
  ⟨rfl,
   asin_gating_amended "https://x/dp/b07xj8c8f5/ref=abc" none none none
     (fun _ => FetchOutcome.reqErr "ConnectionError") (fun _ => HtmlParse.exn "x")
     (fun _ => false) (ModelOutcome.apiError "quota") 1 rfl⟩

/-- C8 counterexample: a request carrying the override pair
`("", "")` does not skip scraping — the scraper is invoked and the
output brand field is a scrape sentinel, not the override value. -/
theorem override_verbatim_cex :
    (analyze_product "B07XJ8C8F5" none (some "") (some "")
        (fun _ => FetchOutcome.reqErr "ConnectionError") (fun _ => HtmlParse.exn "x")
        (fun _ => false) (ModelOutcome.apiError "q") 1).2 = ["B07XJ8C8F5"] ∧
    (analyze_product "B07XJ8C8F5" none (some "") (some "")
        (fun _ => FetchOutcome.reqErr "ConnectionError") (fun _ => HtmlParse.exn "x")
        (fun _ => false) (ModelOutcome.apiError "q") 1).1[0]?
      = some ("Brand (Amazon)", JVal.str "爬虫失败 (ConnectionError)") := by
  exact ⟨rfl, rfl⟩

/-- C8 amended: for every request whose override pair has at least one
non-empty component, the orchestrator never invokes the scraper, and the
output brand/seller fields are the override components with an absent or
empty component rendered as the empty string. -/
theorem override_verbatim_amended
    (asin : String) (image_url brand_override sold_by_override : Option String)
    (fetch : Nat → FetchOutcome) (parse : String → HtmlParse)
    (imageOk : String → Bool) (modelResp : ModelOutcome) (maxRetries : Nat)
    (hov : (pyTruthy brand_override || pyTruthy sold_by_override) = true) :
    (analyze_product asin image_url brand_override sold_by_override
        fetch parse imageOk modelResp maxRetries).2 = [] ∧
    (analyze_product asin image_url brand_override sold_by_override
        fetch parse imageOk modelResp maxRetries).1[0]?
      = some ("Brand (Amazon)", JVal.str (pyOrEmpty brand_override)) ∧
    (analyze_product asin image_url brand_override sold_by_override
        fetch parse imageOk modelResp maxRetries).1[1]?
      = some ("Sold By (Amazon)", JVal.str (pyOrEmpty sold_by_override)) := by
  obtain ⟨h2, h0, h1⟩ := analyze_product_proj asin image_url brand_override sold_by_override
    fetch parse imageOk modelResp maxRetries
  refine ⟨?_, ?_, ?_⟩
  · rw [h2]; simp only [resolveBrandSold, hov, if_true]
  · rw [h0]; simp only [resolveBrandSold, hov, if_true]
  · rw [h1]; simp only [resolveBrandSold, hov, if_true]

/-- Witness for the amended C8: the end-to-end scenario of spec §8
(override pair ("Acme", "Acme Direct"), failing network). -/
theorem override_verbatim_amended_witness :
    ((pyTruthy (some "Acme") || pyTruthy (some "Acme Direct")) = true) ∧
    (analyze_product "B000000000" none (some "Acme") (some "Acme Direct")
        (fun _ => FetchOutcome.reqErr "ConnectionError") (fun _ => HtmlParse.exn "x")
        (fun _ => false) (ModelOutcome.apiError "q") 3).2 = [] ∧
    (analyze_product "B000000000" none (some "Acme") (some "Acme Direct")
        (fun _ => FetchOutcome.reqErr "ConnectionError") (fun _ => HtmlParse.exn "x")
        (fun _ => false) (ModelOutcome.apiError "q") 3).1[0]?
      = some ("Brand (Amazon)", JVal.str "Acme") ∧
    (analyze_product "B000000000" none (some "Acme") (some "Acme Direct")
        (fun _ => FetchOutcome.reqErr "ConnectionError") (fun _ => HtmlParse.exn "x")
        (fun _ => false) (ModelOutcome.apiError "q") 3).1[1]?
      = some ("Sold By (Amazon)", JVal.str "Acme Direct") :=
  ⟨rfl,
   override_verbatim_amended "B000000000" none (some "Acme") (some "Acme Direct")
     (fun _ => FetchOutcome.reqErr "ConnectionError") (fun _ => HtmlParse.exn "x")
     (fun _ => false) (ModelOutcome.apiError "q") 3 rfl⟩

/-- C10: override gating is by string truthiness, not presence: an
override pair of two empty strings behaves exactly as no override at
all (scraping is not skipped), while a single non-empty override skips
scraping and renders the other output field as the empty string. -/
theorem override_truthiness_gating
    (asin : String) (image_url : Option String)
    (fetch : Nat → FetchOutcome) (parse : String → HtmlParse)
    (imageOk : String → Bool) (modelResp : ModelOutcome) (maxRetries : Nat)
    (v : String) (hv : v ≠ "") :
    (analyze_product asin image_url (some "") (some "")
        fetch parse imageOk modelResp maxRetries
      = analyze_product asin image_url none none
        fetch parse imageOk modelResp maxRetries) ∧
    ((analyze_product asin image_url (some v) none
        fetch parse imageOk modelResp maxRetries).2 = [] ∧
     (analyze_product asin image_url (some v) none
        fetch parse imageOk modelResp maxRetries).1[1]?
       = some ("Sold By (Amazon)", JVal.str "")) ∧
    ((analyze_product asin image_url (some v) (some "")
        fetch parse imageOk modelResp maxRetries).2 = [] ∧
     (analyze_product asin image_url (some v) (some "")
        fetch parse imageOk modelResp maxRetries).1[1]?
       = some ("Sold By (Amazon)", JVal.str "")) ∧
    ((analyze_product asin image_url none (some v)
        fetch parse imageOk modelResp maxRetries).2 = [] ∧
     (analyze_product asin image_url none (some v)
        fetch parse imageOk modelResp maxRetries).1[0]?
       = some ("Brand (Amazon)", JVal.str "")) ∧
    ((analyze_product asin image_url (some "") (some v)
        fetch parse imageOk modelResp maxRetries).2 = [] ∧
     (analyze_product asin image_url (some "") (some v)
        fetch parse imageOk modelResp maxRetries).1[0]?
       = some ("Brand (Amazon)", JVal.str "")) := by
  have hvt : ∀ o : Option String, (pyTruthy (some v) || pyTruthy o) = true := by
    intro o; simp [pyTruthy, hv]
  have hvt2 : ∀ o : Option String, (pyTruthy o || pyTruthy (some v)) = true := by
    intro o; simp [pyTruthy, hv]
  refine ⟨rfl, ?_, ?_, ?_, ?_⟩
  · obtain ⟨h2, h0, h1⟩ := analyze_product_proj asin image_url (some v) none
      fetch parse imageOk modelResp maxRetries
    exact ⟨by rw [h2]; simp only [resolveBrandSold, hvt, if_true],
           by rw [h1]; simp only [resolveBrandSold, hvt, if_true]; rfl⟩
  · obtain ⟨h2, h0, h1⟩ := analyze_product_proj asin image_url (some v) (some "")
      fetch parse imageOk modelResp maxRetries
    exact ⟨by rw [h2]; simp only [resolveBrandSold, hvt, if_true],
           by rw [h1]; simp only [resolveBrandSold, hvt, if_true]; rfl⟩
  · obtain ⟨h2, h0, h1⟩ := analyze_product_proj asin image_url none (some v)
      fetch parse imageOk modelResp maxRetries
    exact ⟨by rw [h2]; simp only [resolveBrandSold, hvt2, if_true],
           by rw [h0]; simp only [resolveBrandSold, hvt2, if_true]; rfl⟩
  · obtain ⟨h2, h0, h1⟩ := analyze_product_proj asin image_url (some "") (some v)
      fetch parse imageOk modelResp maxRetries
    exact ⟨by rw [h2]; simp only [resolveBrandSold, hvt2, if_true],
           by rw [h0]; simp only [resolveBrandSold, hvt2, if_true]; rfl⟩

/-- Witness for C10 at `v = "Acme"` and concrete oracles. -/
theorem override_truthiness_gating_witness :
    (("Acme" : String) ≠ "") ∧
    ((analyze_product "B07XJ8C8F5" none (some "") (some "")
        (fun _ => FetchOutcome.reqErr "E") (fun _ => HtmlParse.exn "x")
        (fun _ => false) (ModelOutcome.apiError "q") 1
      = analyze_product "B07XJ8C8F5" none none none
        (fun _ => FetchOutcome.reqErr "E") (fun _ => HtmlParse.exn "x")
        (fun _ => false) (ModelOutcome.apiError "q") 1) ∧
    ((analyze_product "B07XJ8C8F5" none (some "Acme") none
        (fun _ => FetchOutcome.reqErr "E") (fun _ => HtmlParse.exn "x")
        (fun _ => false) (ModelOutcome.apiError "q") 1).2 = [] ∧
     (analyze_product "B07XJ8C8F5" none (some "Acme") none
        (fun _ => FetchOutcome.reqErr "E") (fun _ => HtmlParse.exn "x")
        (fun _ => false) (ModelOutcome.apiError "q") 1).1[1]?
       = some ("Sold By (Amazon)", JVal.str "")) ∧
    ((analyze_product "B07XJ8C8F5" none (some "Acme") (some "")
        (fun _ => FetchOutcome.reqErr "E") (fun _ => HtmlParse.exn "x")
        (fun _ => false) (ModelOutcome.apiError "q") 1).2 = [] ∧
     (analyze_product "B07XJ8C8F5" none (some "Acme") (some "")
        (fun _ => FetchOutcome.reqErr "E") (fun _ => HtmlParse.exn "x")
        (fun _ => false) (ModelOutcome.apiError "q") 1).1[1]?
       = some ("Sold By (Amazon)", JVal.str "")) ∧
    ((analyze_product "B07XJ8C8F5" none none (some "Acme")
        (fun _ => FetchOutcome.reqErr "E") (fun _ => HtmlParse.exn "x")
        (fun _ => false) (ModelOutcome.apiError "q") 1).2 = [] ∧
     (analyze_product "B07XJ8C8F5" none none (some "Acme")
        (fun _ => FetchOutcome.reqErr "E") (fun _ => HtmlParse.exn "x")
        (fun _ => false) (ModelOutcome.apiError "q") 1).1[0]?
       = some ("Brand (Amazon)", JVal.str "")) ∧
    ((analyze_product "B07XJ8C8F5" none (some "") (some "Acme")
        (fun _ => FetchOutcome.reqErr "E") (fun _ => HtmlParse.exn "x")
        (fun _ => false) (ModelOutcome.apiError "q") 1).2 = [] ∧
     (analyze_product "B07XJ8C8F5" none (some "") (some "Acme")
        (fun _ => FetchOutcome.reqErr "E") (fun _ => HtmlParse.exn "x")
        (fun _ => false) (ModelOutcome.apiError "q") 1).1[0]?
       = some ("Brand (Amazon)", JVal.str ""))) :=
  ⟨by decide,
   override_truthiness_gating "B07XJ8C8F5" none
     (fun _ => FetchOutcome.reqErr "E") (fun _ => HtmlParse.exn "x")
     (fun _ => false) (ModelOutcome.apiError "q") 1 "Acme" (by decide)⟩

/-- The leftmost-match scan for `/dp/([A-Z0-9]{10})` agrees with "first
position at which the pattern matches". -/
theorem dpScan_eq_find (l : List Char) :
    dpScan l = ((List.range l.length).find? (dpMatchAt l)).map
      (fun i => ((l.drop i).drop 4).take 10) := by
  induction l with
  | nil => rfl
  | cons c rest ih =>
    have hshift : dpMatchAt (c :: rest) ∘ Nat.succ = dpMatchAt rest := by
      funext i
      simp [dpMatchAt, List.drop_succ_cons]
    rw [dpScan, List.length_cons, List.range_succ_eq_map]
    cases h : dpMatchAt (c :: rest) 0 with
    | true =>
      have hd : dpHere (c :: rest) = true := by simpa [dpMatchAt] using h
      rw [if_pos hd]
      simp [List.find?_cons, h]
    | false =>
      have hd : dpHere (c :: rest) = false := by simpa [dpMatchAt] using h
      rw [if_neg (by simp [hd])]
      rw [ih]
      have hgr : (fun i => List.take 10 (List.drop 4 (List.drop i (c :: rest)))) ∘ Nat.succ
          = fun i => List.take 10 (List.drop 4 (List.drop i rest)) := by
        funext i
        simp [Function.comp, List.drop_succ_cons]
      simp [List.find?_cons, h, List.find?_map, hshift, hgr, Option.map_map]
      congr 1

/-- The leftmost-match scan for `\b([A-Z0-9]{10})\b` agrees with "first
position at which the pattern matches", for any boundary context. -/
theorem tokScan_eq_find (l : List Char) : ∀ prevW : Bool,
    tokScan prevW l = ((List.range l.length).find?
        (fun i => tokHere (if i = 0 then prevW else prevWordAt l i) (l.drop i))).map
      (fun i => (l.drop i).take 10) := by
  induction l with
  | nil => intro prevW; rfl
  | cons c rest ih =>
    intro prevW
    have hshift : (fun i => tokHere (if i = 0 then prevW else prevWordAt (c :: rest) i)
          ((c :: rest).drop i)) ∘ Nat.succ
        = fun i => tokHere (if i = 0 then isWordChar c else prevWordAt rest i)
            (rest.drop i) := by
      funext i
      cases i with
      | zero => simp [prevWordAt]
      | succ j => simp [prevWordAt, List.drop_succ_cons]
    rw [tokScan, List.length_cons, List.range_succ_eq_map]
    cases h : tokHere prevW (c :: rest) with
    | true =>
      have h0 : (fun i => tokHere (if i = 0 then prevW else prevWordAt (c :: rest) i)
          ((c :: rest).drop i)) 0 = true := by simpa using h
      simp [List.find?_cons, h0, h]
    | false =>
      rw [if_neg (by simp)]
      rw [ih (isWordChar c)]
      have hgr : (fun i => List.take 10 (List.drop i (c :: rest))) ∘ Nat.succ
          = fun i => List.take 10 (List.drop i rest) := by
        funext i
        simp [Function.comp, List.drop_succ_cons]
      simp [List.find?_cons, h, List.find?_map, hshift, hgr, Option.map_map]

/-- C6: the Identifier Extractor implements the spec's search order
(§4.1): first `/dp/` path-embedded match upper-cased, else first
word-bounded standalone 10-character token upper-cased, else absence;
empty input yields absence (and the definition is total: no exception).
`extractAsinSpec` is the spec-side declarative reformulation. -/
theorem extract_asin_spec_equiv :
    (∀ v, extract_asin v = extractAsinSpec v) ∧ extract_asin "" = none := by
  refine ⟨fun v => ?_, rfl⟩
  unfold extract_asin extractAsinSpec
  by_cases hv : v = ""
  · simp [hv]
  · simp only [hv, if_false]
    rw [dpScan_eq_find, tokScan_eq_find]
    have hctx : (fun i => tokHere (if i = 0 then false else prevWordAt (pyStrip v.toList) i)
        ((pyStrip v.toList).drop i)) = tokMatchAt (pyStrip v.toList) := by
      funext i
      cases i with
      | zero => simp [tokMatchAt, prevWordAt]
      | succ j => simp [tokMatchAt]
    rw [hctx]
    cases (List.range (pyStrip v.toList).length).find? (dpMatchAt (pyStrip v.toList)) with
    | some i => simp
    | none =>
      cases (List.range (pyStrip v.toList).length).find? (tokMatchAt (pyStrip v.toList)) with
      | some i => simp
      | none => simp

/-- A successful `/dp/` head-match captures exactly ten alphanumeric
characters. -/
theorem dpHere_spec (l : List Char) (h : dpHere l = true) :
    ((l.drop 4).take 10).length = 10 ∧ ((l.drop 4).take 10).all isAlnumA = true := by
  rcases l with _ | ⟨a, _ | ⟨d, _ | ⟨p, _ | ⟨b, rest⟩⟩⟩⟩ <;> simp [dpHere] at h
  obtain ⟨⟨⟨⟨⟨h1, h2⟩, h3⟩, h4⟩, hlen⟩, hall⟩ := h
  constructor
  · simp [List.length_take]
    omega
  · simpa using hall

/-- A successful word-bounded head-match captures exactly ten
alphanumeric characters. -/
theorem tokHere_spec (prevW : Bool) (l : List Char) (h : tokHere prevW l = true) :
    (l.take 10).length = 10 ∧ (l.take 10).all isAlnumA = true := by
  unfold tokHere at h
  simp only [Bool.and_eq_true, decide_eq_true_eq] at h
  obtain ⟨⟨⟨_, hlen⟩, hall⟩, _⟩ := h
  refine ⟨?_, hall⟩
  simp [List.length_take]
  omega

/-- Any group captured by the `/dp/` scan is ten alphanumerics. -/
theorem dpScan_shape : ∀ l g, dpScan l = some g →
    g.length = 10 ∧ g.all isAlnumA = true := by
  intro l
  induction l with
  | nil => intro g h; simp [dpScan] at h
  | cons c rest ih =>
    intro g h
    rw [dpScan] at h
    by_cases hd : dpHere (c :: rest)
    · rw [if_pos hd] at h
      injection h with h
      subst h
      exact dpHere_spec _ hd
    · rw [if_neg hd] at h
      exact ih g h

/-- Any group captured by the token scan is ten alphanumerics. -/
theorem tokScan_shape : ∀ (l : List Char) (prevW : Bool) (g : List Char),
    tokScan prevW l = some g → g.length = 10 ∧ g.all isAlnumA = true := by
  intro l
  induction l with
  | nil => intro prevW g h; simp [tokScan] at h
  | cons c rest ih =>
    intro prevW g h
    rw [tokScan] at h
    by_cases ht : tokHere prevW (c :: rest)
    · rw [if_pos ht] at h
      injection h with h
      subst h
      exact tokHere_spec _ _ ht
    · rw [if_neg ht] at h
      exact ih (isWordChar c) g h

/-- Every successful extraction returns the upper-casing of a captured
ten-character alphanumeric group. -/
theorem extract_asin_shape (s r : String) (h : extract_asin s = some r) :
    ∃ g : List Char, r = String.mk (g.map pyUpperChar) ∧
      g.length = 10 ∧ g.all isAlnumA = true := by
  unfold extract_asin at h
  by_cases hs : s = ""
  · rw [if_pos hs] at h; cases h
  · rw [if_neg hs] at h
    simp only [] at h
    rcases hd : dpScan (pyStrip s.toList) with _ | g
    · rw [hd] at h
      rcases ht : tokScan false (pyStrip s.toList) with _ | g2
      · rw [ht] at h; cases h
      · rw [ht] at h
        injection h with h
        exact ⟨g2, h.symm, tokScan_shape _ _ _ ht⟩
    · rw [hd] at h
      injection h with h
      exact ⟨g, h.symm, dpScan_shape _ _ hd⟩

/-- Character-level facts about upper-casing alphanumerics, established
by bounded evaluation below the ASCII range. -/
theorem alnum_upper_char_facts : ∀ n, n < 123 → isAlnumA (Char.ofNat n) = true →
    isAlnumA (pyUpperChar (Char.ofNat n)) = true ∧
    pyUpperChar (pyUpperChar (Char.ofNat n)) = pyUpperChar (Char.ofNat n) ∧
    isPySpace (pyUpperChar (Char.ofNat n)) = false := by decide

/-- Alphanumeric characters sit below code point 123. -/
theorem isAlnumA_toNat_lt (c : Char) (hc : isAlnumA c = true) : c.toNat < 123 := by
  unfold isAlnumA at hc
  simp only [Bool.or_eq_true, Bool.and_eq_true, decide_eq_true_eq] at hc
  rcases hc with (⟨_, h2⟩ | ⟨_, h2⟩) | ⟨_, h2⟩
  · have h3 : c.toNat ≤ 90 := Char.le_def.mp h2
    omega
  · have h3 : c.toNat ≤ 122 := Char.le_def.mp h2
    omega
  · have h3 : c.toNat ≤ 57 := Char.le_def.mp h2
    omega

/-- Upper-casing an alphanumeric character yields an alphanumeric,
upper-casing-fixed, non-whitespace character. -/
theorem alnum_upper_facts (c : Char) (hc : isAlnumA c = true) :
    isAlnumA (pyUpperChar c) = true ∧
    pyUpperChar (pyUpperChar c) = pyUpperChar c ∧
    isPySpace (pyUpperChar c) = false := by
  have hb := isAlnumA_toNat_lt c hc
  have h := alnum_upper_char_facts c.toNat hb (by rwa [Char.ofNat_toNat])
  rwa [Char.ofNat_toNat] at h

/-- `dropWhile` is the identity on whitespace-free lists. -/
theorem dropWhile_eq_self_of_no_space (l : List Char)
    (h : ∀ c ∈ l, isPySpace c = false) : l.dropWhile isPySpace = l := by
  cases l with
  | nil => rfl
  | cons c rest =>
    rw [List.dropWhile_cons, h c (by simp)]
    simp

/-- `strip` is the identity on whitespace-free strings. -/
theorem pyStrip_eq_self (l : List Char) (h : ∀ c ∈ l, isPySpace c = false) :
    pyStrip l = l := by
  unfold pyStrip
  rw [dropWhile_eq_self_of_no_space l h,
    dropWhile_eq_self_of_no_space l.reverse (fun c hc => h c (List.mem_reverse.mp hc)),
    List.reverse_reverse]

/-- A `/dp/` match needs at least 14 characters. -/
theorem dpHere_short (l : List Char) (hlen : l.length < 14) : dpHere l = false := by
  cases hdp : dpHere l with
  | false => rfl
  | true =>
    exfalso
    rcases l with _ | ⟨a, _ | ⟨d, _ | ⟨p, _ | ⟨b, rest⟩⟩⟩⟩ <;> simp [dpHere] at hdp
    obtain ⟨⟨⟨⟨⟨_, _⟩, _⟩, _⟩, hl10⟩, _⟩ := hdp
    simp at hlen
    omega

/-- The `/dp/` scan finds nothing in a string shorter than 14
characters. -/
theorem dpScan_none_of_short : ∀ l : List Char, l.length < 14 → dpScan l = none := by
  intro l
  induction l with
  | nil => intro _; rfl
  | cons c rest ih =>
    intro hl
    rw [dpScan, dpHere_short _ hl]
    simp only [Bool.false_eq_true, if_false]
    refine ih ?_
    simp at hl
    omega

/-- Extraction passes an already-canonical ten-character code through
unchanged. -/
theorem extract_of_canonical (m : List Char) (hlen : m.length = 10)
    (hfacts : ∀ c ∈ m, isAlnumA c = true ∧ pyUpperChar c = c ∧ isPySpace c = false) :
    extract_asin (String.mk m) = some (String.mk m) := by
  have hne : ¬(String.mk m = "") := by
    intro hmk
    have hnil : m = [] := congrArg String.data hmk
    rw [hnil] at hlen
    cases hlen
  have htl : (String.mk m).toList = m := rfl
  have e1 : pyStrip (String.mk m).toList = m := by
    rw [htl]
    exact pyStrip_eq_self m (fun c hc => (hfacts c hc).2.2)
  have e2 : dpScan m = none := dpScan_none_of_short m (by omega)
  have etake : m.take 10 = m := List.take_of_length_le (by omega)
  have edrop : m.drop 10 = [] := List.drop_eq_nil_of_le (by omega)
  have hth : tokHere false m = true := by
    unfold tokHere
    rw [etake, edrop]
    simp [hlen, List.all_eq_true]
    exact fun c hc => (hfacts c hc).1
  have e4 : m.map pyUpperChar = m := by
    have := List.map_congr_left (l := m) (f := pyUpperChar) (g := id)
      (fun c hc => (hfacts c hc).2.1)
    simpa using this
  obtain ⟨c, rest, rfl⟩ : ∃ c rest, m = c :: rest := by
    cases m with
    | nil => cases hlen
    | cons c rest => exact ⟨c, rest, rfl⟩
  have e3 : tokScan false (c :: rest) = some (c :: rest) := by
    rw [tokScan, if_pos hth, etake]
  unfold extract_asin
  rw [if_neg hne]
  simp only [e1, e2, e3, e4]

/-- C7: identifier extraction is idempotent — whenever extraction
succeeds, feeding the extracted code back in returns the same code
unchanged. -/
theorem extract_asin_idempotent (s r : String) (h : extract_asin s = some r) :
    extract_asin r = some r := by
  obtain ⟨g, rfl, hlen, hall⟩ := extract_asin_shape s r h
  have hall' : ∀ c ∈ g, isAlnumA c = true := List.all_eq_true.mp hall
  refine extract_of_canonical (g.map pyUpperChar) (by simp [hlen]) ?_
  intro c hc
  rcases List.mem_map.mp hc with ⟨d, hd, rfl⟩
  obtain ⟨f1, f2, f3⟩ := alnum_upper_facts d (hall' d hd)
  exact ⟨f1, f2, f3⟩

/-- Witness for C7 at the spec's concrete product URL. -/
theorem extract_asin_idempotent_witness :
    extract_asin "https://x/dp/b07xj8c8f5/ref=abc" = some "B07XJ8C8F5" ∧
    extract_asin "B07XJ8C8F5" = some "B07XJ8C8F5" :=
  ⟨rfl, extract_asin_idempotent "https://x/dp/b07xj8c8f5/ref=abc" "B07XJ8C8F5" rfl⟩

/-- Elements of a `dropWhile` result are elements of the input. -/
theorem mem_of_mem_dropWhile (p : Char → Bool) :
    ∀ (l : List Char) (c : Char), c ∈ l.dropWhile p → c ∈ l := by
  intro l
  induction l with
  | nil => intro c h; exact absurd h (by simp)
  | cons d rest ih =>
    intro c h
    rw [List.dropWhile_cons] at h
    by_cases hp : p d = true
    · rw [if_pos hp] at h
      exact List.mem_cons_of_mem d (ih c h)
    · rw [if_neg hp] at h
      exact h

/-- Elements of a matched pattern occur in the matched list. -/
theorem mem_of_isPrefixOf : ∀ (pat l : List Char), pat.isPrefixOf l = true →
    ∀ c ∈ pat, c ∈ l := by
  intro pat
  induction pat with
  | nil => intro l _ c hc; cases hc
  | cons p0 pt ih =>
    intro l h c hc
    cases l with
    | nil => cases h
    | cons l0 lt =>
      simp only [List.isPrefixOf_cons₂] at h
      have h2 := Bool.and_eq_true_iff.mp h
      have hpl : p0 = l0 := by
        have := h2.1
        simpa using this
      rcases List.mem_cons.mp hc with rfl | hc2
      · rw [hpl]; exact List.mem_cons_self l0 lt
      · exact List.mem_cons_of_mem _ (ih lt h2.2 c hc2)

/-- `replace` leaves a list alone when some pattern character never
occurs in it. -/
theorem replAux_eq_self (pat : List Char) (a : Char) (hpat : a ∈ pat) :
    ∀ (f : Nat) (l : List Char), a ∉ l → replAux pat f l = l := by
  intro f
  induction f with
  | zero => intro l _; cases l <;> rfl
  | succ f ih =>
    intro l hl
    cases l with
    | nil => rfl
    | cons c rest =>
      have hnp : (pat ≠ [] && pat.isPrefixOf (c :: rest)) = false := by
        cases hip : pat.isPrefixOf (c :: rest)
        · simp
        · exact absurd (mem_of_isPrefixOf pat _ hip a hpat) hl
      rw [replAux, hnp]
      simp only [Bool.false_eq_true, if_false]
      have : a ∉ rest := fun hm => hl (List.mem_cons_of_mem c hm)
      rw [ih rest this]

/-- `str.replace(pat, "")` is the identity on strings missing a pattern
character. -/
theorem listRemoveAll_eq_self (pat l : List Char) (a : Char)
    (hpat : a ∈ pat) (hl : a ∉ l) : listRemoveAll pat l = l :=
  replAux_eq_self pat a hpat l.length l hl

/-- `dropWhile` distributes over an append whose right part starts with
a failing character. -/
theorem dropWhile_append_eq (p : Char → Bool) (a b : List Char)
    (hb : ∀ h, b.head? = some h → p h = false) :
    (a ++ b).dropWhile p = a.dropWhile p ++ b := by
  induction a with
  | nil =>
    simp only [List.nil_append, List.dropWhile_nil]
    cases b with
    | nil => rfl
    | cons h t =>
      rw [List.dropWhile_cons, hb h rfl]
      simp
  | cons c a ih =>
    rw [List.cons_append, List.dropWhile_cons, List.dropWhile_cons]
    by_cases hp : p c = true
    · rw [if_pos hp, if_pos hp, ih]
    · rw [if_neg hp, if_neg hp, List.cons_append]

/-- The first occurrence of `c` in `a ++ b` when `a` misses `c` and `b`
starts with it. -/
theorem findIdxChar_concat (c : Char) (a b : List Char)
    (ha : c ∉ a) (hb : b.head? = some c) :
    findIdxChar c (a ++ b) = some a.length := by
  induction a with
  | nil =>
    cases b with
    | nil => cases hb
    | cons h t =>
      have : h = c := by injection hb
      subst this
      simp [findIdxChar]
  | cons d a ih =>
    have hdc : ¬(d = c) := fun hdc => ha (hdc ▸ List.mem_cons_self d a)
    rw [List.cons_append, findIdxChar, if_neg hdc,
      ih (fun hm => ha (List.mem_cons_of_mem d hm))]
    rfl

/-- Stripping whitespace around `a ++ s ++ b` only trims the outer
parts when `s` starts and ends with non-whitespace characters. -/
theorem pyStrip_concat (a s b : List Char) (c0 cl : Char)
    (hs0 : s.head? = some c0) (hns0 : isPySpace c0 = false)
    (hsl : s.getLast? = some cl) (hnsl : isPySpace cl = false) :
    pyStrip (a ++ s ++ b)
      = a.dropWhile isPySpace ++ s ++ (b.reverse.dropWhile isPySpace).reverse := by
  have hsne : s ≠ [] := by
    intro hnil
    rw [hnil] at hs0
    cases hs0
  have h1 : (a ++ s ++ b).dropWhile isPySpace
      = a.dropWhile isPySpace ++ (s ++ b) := by
    rw [List.append_assoc]
    refine dropWhile_append_eq _ a (s ++ b) ?_
    intro h hh
    rcases s with _ | ⟨sc, st⟩
    · exact absurd rfl hsne
    · have e1 : sc = c0 := by simpa using hs0
      have e2 : h = sc := by
        rw [List.cons_append] at hh
        simpa using hh.symm
      rw [e2, e1]
      exact hns0
  have h2 : (b.reverse ++ (s.reverse ++ (a.dropWhile isPySpace).reverse)).dropWhile isPySpace
      = b.reverse.dropWhile isPySpace ++ (s.reverse ++ (a.dropWhile isPySpace).reverse) := by
    refine dropWhile_append_eq _ b.reverse _ ?_
    intro h hh
    have hrs : (s.reverse ++ (a.dropWhile isPySpace).reverse).head? = some cl := by
      cases hsr : s.reverse with
      | nil =>
        exact absurd (by simpa using congrArg List.reverse hsr) hsne
      | cons rc rt =>
        have e3 : s.reverse.head? = some cl := by
          rw [List.head?_reverse]
          exact hsl
        rw [hsr] at e3
        simpa [hsr] using e3
    rw [hrs] at hh
    have e4 : h = cl := by simpa using hh.symm
    rw [e4]
    exact hnsl
  unfold pyStrip
  rw [h1]
  have hrev : (a.dropWhile isPySpace ++ (s ++ b)).reverse
      = b.reverse ++ (s.reverse ++ (a.dropWhile isPySpace).reverse) := by
    simp [List.reverse_append]
  rw [hrev, h2]
  simp [List.reverse_append, List.append_assoc]

/-- C4 counterexample: the claim fails for arbitrary objects and prose.
(1) An object whose serialization contains a fence marker inside a JSON
string — `\x7b"a": "```"\x7d` — is corrupted by fence removal and
extracts to a different object (`"a"` maps to `""`).  (2) Prose
containing a stray opening brace before the object makes the brace span
invalid JSON, so extraction reports a parse error. -/
theorem json_extraction_cex :
    _extract_json "\x7b\"a\": \"```\"\x7d" = Except.ok (JVal.obj [("a", JVal.str "")]) ∧
    JVal.str "" ≠ JVal.str "```" ∧
    _extract_json "oops \x7b \x7b\"a\":1\x7d"
      = Except.error "Expecting property name enclosed in double quotes" := by
  refine ⟨rfl, ?_, rfl⟩
  intro h
  injection h with h
  exact absurd h (by decide)

/-- `replace` does not depend on the fuel once it covers the list
length. -/
theorem replAux_fuel_invariant (pat : List Char) :
    ∀ (f₁ f₂ : Nat) (l : List Char), l.length ≤ f₁ → l.length ≤ f₂ →
      replAux pat f₁ l = replAux pat f₂ l := by
  intro f₁
  induction f₁ with
  | zero =>
    intro f₂ l h1 _
    have : l = [] := List.eq_nil_of_length_eq_zero (Nat.le_zero.mp h1)
    subst this
    cases f₂ <;> rfl
  | succ f ih =>
    intro f₂ l h1 h2
    cases l with
    | nil => cases f₂ <;> rfl
    | cons c rest =>
      cases f₂ with
      | zero => simp at h2
      | succ g =>
        rw [replAux, replAux]
        by_cases hc : (pat ≠ [] && pat.isPrefixOf (c :: rest)) = true
        · rw [if_pos hc, if_pos hc]
          have hplen : 1 ≤ pat.length := by
            rcases pat with _ | ⟨p, ps⟩
            · simp at hc
            · simp
          refine ih g _ ?_ ?_ <;>
            · simp only [List.length_drop, List.length_cons] at *
              omega
        · rw [if_neg hc, if_neg hc]
          have := ih g rest (by simp at h1; omega) (by simp at h2; omega)
          rw [this]

/-- A matched pattern is no longer than the matched list. -/
theorem isPrefixOf_length_le : ∀ (pat l : List Char),
    pat.isPrefixOf l = true → pat.length ≤ l.length := by
  intro pat
  induction pat with
  | nil => intro l _; simp
  | cons p ps ih =>
    intro l h
    cases l with
    | nil => cases h
    | cons c rest =>
      simp only [List.isPrefixOf_cons₂, Bool.and_eq_true] at h
      have := ih rest h.2
      simp only [List.length_cons]
      omega

/-- When the right part starts with a character foreign to the pattern,
prefix-matching across the boundary reduces to matching the left
part. -/
theorem isPrefixOf_append_head (c0 : Char) (y : List Char) (hy : y.head? = some c0) :
    ∀ (pat : List Char), c0 ∉ pat →
    ∀ a' : List Char, pat.isPrefixOf (a' ++ y) = pat.isPrefixOf a' := by
  intro pat
  induction pat with
  | nil => intro _ a'; simp [List.isPrefixOf]
  | cons p ps ih =>
    intro hc a'
    cases a' with
    | nil =>
      cases y with
      | nil => cases hy
      | cons h t =>
        have he : h = c0 := by simpa using hy
        have hpc : ¬(p == c0) = true := by
          simp only [beq_iff_eq]
          intro hpe
          apply hc
          rw [← hpe]
          exact List.mem_cons_self p ps
        simp only [List.nil_append, List.isPrefixOf, List.isPrefixOf_cons₂, he]
        simp [Bool.and_eq_true, hpc]
    | cons b bs =>
      simp only [List.cons_append, List.isPrefixOf_cons₂]
      rw [ih (fun hm => hc (List.mem_cons_of_mem p hm)) bs]

/-- When the left part ends with a character foreign to the pattern,
prefix-matching across the boundary reduces to matching the left
part. -/
theorem isPrefixOf_append_last (cl : Char) (z : List Char) :
    ∀ (pat : List Char), cl ∉ pat →
    ∀ a' : List Char, a'.getLast? = some cl →
      pat.isPrefixOf (a' ++ z) = pat.isPrefixOf a' := by
  intro pat
  induction pat with
  | nil => intro _ a' _; simp [List.isPrefixOf]
  | cons p ps ih =>
    intro hc a' hlast
    cases a' with
    | nil => cases hlast
    | cons b bs =>
      cases bs with
      | nil =>
        have hb : b = cl := by simpa using hlast
        have hpb : ¬(p == b) = true := by
          simp only [beq_iff_eq]
          intro hpe
          apply hc
          rw [← (hpe.trans hb)]
          exact List.mem_cons_self p ps
        cases z with
        | nil => simp
        | cons z0 zt =>
          simp only [List.cons_append, List.nil_append, List.isPrefixOf_cons₂]
          simp [Bool.and_eq_true, hpb]
      | cons d ds =>
        have hlast2 : (d :: ds).getLast? = some cl := by
          rw [← List.getLast?_cons_cons (a := b)]
          exact hlast
        simp only [List.cons_append, List.isPrefixOf_cons₂]
        rw [← List.cons_append d ds z]
        rw [ih (fun hm => hc (List.mem_cons_of_mem p hm)) (d :: ds) hlast2]

/-- A non-empty suffix has the same last element as the full list. -/
theorem getLast?_of_suffix (a' s : List Char) (h : a' <:+ s) (hne : a' ≠ []) :
    a'.getLast? = s.getLast? := by
  obtain ⟨t, rfl⟩ := h
  exact (List.getLast?_append_of_ne_nil t hne).symm

/-- `replace` keeps a list whose suffixes never start with the
pattern. -/
theorem replAux_keep (pat : List Char) :
    ∀ (f : Nat) (l : List Char),
      (∀ a', a' <:+ l → a' ≠ [] → pat.isPrefixOf a' = false) →
      replAux pat f l = l := by
  intro f
  induction f with
  | zero => intro l _; cases l <;> rfl
  | succ f ih =>
    intro l hl
    cases l with
    | nil => rfl
    | cons c rest =>
      have hp : pat.isPrefixOf (c :: rest) = false :=
        hl (c :: rest) (List.suffix_refl _) (by simp)
      rw [replAux]
      rw [if_neg (by simp [hp])]
      rw [ih rest (fun a' hs hne => hl a' (hs.trans (List.suffix_cons c rest)) hne)]

/-- Left-to-right non-overlapping `replace` factors over an append
whose boundary no occurrence straddles. -/
theorem replAux_append_factor (pat : List Char) (y : List Char) :
    ∀ (f : Nat) (x : List Char), x.length ≤ f →
      (∀ a', a' <:+ x → a' ≠ [] →
        pat.isPrefixOf (a' ++ y) = pat.isPrefixOf a') →
      replAux pat (f + y.length) (x ++ y)
        = replAux pat f x ++ replAux pat y.length y := by
  intro f
  induction f with
  | zero =>
    intro x hx _
    have : x = [] := List.eq_nil_of_length_eq_zero (Nat.le_zero.mp hx)
    subst this
    simp only [List.nil_append, Nat.zero_add]
    rfl
  | succ f ih =>
    intro x hx hb
    cases x with
    | nil =>
      simp only [List.nil_append]
      rw [replAux_fuel_invariant pat (f + 1 + y.length) y.length y (by omega) le_rfl]
      rfl
    | cons c rest =>
      have hfuel : f + 1 + y.length = (f + y.length) + 1 := by omega
      rw [hfuel]
      have heq : pat.isPrefixOf (c :: (rest ++ y)) = pat.isPrefixOf (c :: rest) := by
        rw [← List.cons_append]
        exact hb (c :: rest) (List.suffix_refl _) (by simp)
      rw [List.cons_append, replAux, replAux, heq]
      by_cases hc : (pat ≠ [] && pat.isPrefixOf (c :: rest)) = true
      · rw [if_pos hc, if_pos hc]
        have hcp : pat.isPrefixOf (c :: rest) = true := by
          simp only [Bool.and_eq_true] at hc
          exact hc.2
        have hle : pat.length ≤ (c :: rest).length := isPrefixOf_length_le _ _ hcp
        have hdrop : (c :: (rest ++ y)).drop pat.length
            = (c :: rest).drop pat.length ++ y := by
          rw [← List.cons_append]
          exact List.drop_append_of_le_length hle
        rw [hdrop]
        refine ih ((c :: rest).drop pat.length) ?_ ?_
        · have hplen : 1 ≤ pat.length := by
            rcases pat with _ | ⟨p, ps⟩
            · simp at hc
            · simp
          simp only [List.length_drop, List.length_cons] at *
          omega
        · intro a' hs hne
          exact hb a' (hs.trans (List.drop_suffix pat.length (c :: rest))) hne
      · rw [if_neg hc, if_neg hc]
        rw [ih rest (by simp at hx; omega)
          (fun a' hs hne => hb a' (hs.trans (List.suffix_cons c rest)) hne)]
        rfl

/-- `replace` only deletes characters. -/
theorem mem_of_mem_replAux (pat : List Char) :
    ∀ (f : Nat) (l : List Char) (c : Char), c ∈ replAux pat f l → c ∈ l := by
  intro f
  induction f with
  | zero =>
    intro l c h
    cases l with
    | nil => cases h
    | cons d rest => exact h
  | succ f ih =>
    intro l c h
    cases l with
    | nil => cases h
    | cons d rest =>
      rw [replAux] at h
      by_cases hc : (pat ≠ [] && pat.isPrefixOf (d :: rest)) = true
      · rw [if_pos hc] at h
        exact (List.drop_suffix pat.length (d :: rest)).mem (ih _ c h)
      · rw [if_neg hc] at h
        rcases List.mem_cons.mp h with rfl | h2
        · exact List.mem_cons_self c rest
        · exact List.mem_cons_of_mem d (ih rest c h2)

/-- A substring-free list has no suffix starting with the pattern. -/
theorem containsSub_false_no_occ (pat : List Char) :
    ∀ (l : List Char), containsSub pat l = false →
      ∀ a', a' <:+ l → a' ≠ [] → pat.isPrefixOf a' = false := by
  intro l
  induction l with
  | nil =>
    intro _ a' hs hne
    have : a' = [] := List.eq_nil_of_length_eq_zero
      (Nat.le_zero.mp (hs.length_le.trans (by simp)))
    exact absurd this hne
  | cons c rest ih =>
    intro h a' hs hne
    rw [containsSub] at h
    have h1 : pat.isPrefixOf (c :: rest) = false := by
      cases hp : pat.isPrefixOf (c :: rest)
      · rfl
      · rw [hp] at h; simp at h
    have h2 : containsSub pat rest = false := by
      cases hcs : containsSub pat rest
      · rfl
      · rw [hcs] at h; simp at h
    rcases List.suffix_cons_iff.mp hs with rfl | hs2
    · exact h1
    · exact ih h2 a' hs2 hne

/-- A prefix match of a concatenated pattern gives a prefix match of
its left half. -/
theorem isPrefixOf_of_append_left : ∀ (p q l : List Char),
    (p ++ q).isPrefixOf l = true → p.isPrefixOf l = true := by
  intro p
  induction p with
  | nil => intro q l _; simp [List.isPrefixOf]
  | cons a as ih =>
    intro q l h
    cases l with
    | nil => cases h
    | cons b bs =>
      rw [List.cons_append, List.isPrefixOf_cons₂] at h
      rw [List.isPrefixOf_cons₂]
      simp only [Bool.and_eq_true] at h ⊢
      exact ⟨h.1, ih q bs h.2⟩

/-- Python `str.replace(pat, "")` factors over `pre ++ s ++ post` when
`s` starts and ends with characters foreign to the pattern and contains
no occurrence of it: the payload `s` passes through untouched. -/
theorem listRemoveAll_concat (pat pre s post : List Char) (c0 cl : Char)
    (hs0 : s.head? = some c0) (hc0 : c0 ∉ pat)
    (hsl : s.getLast? = some cl) (hcl : cl ∉ pat)
    (hnos : ∀ a', a' <:+ s → a' ≠ [] → pat.isPrefixOf a' = false) :
    listRemoveAll pat (pre ++ s ++ post)
      = listRemoveAll pat pre ++ s ++ listRemoveAll pat post := by
  have hsne : s ≠ [] := by
    intro h
    rw [h] at hs0
    cases hs0
  have hhead : (s ++ post).head? = some c0 := by
    rcases s with _ | ⟨a, t⟩
    · cases hs0
    · simpa using hs0
  unfold listRemoveAll
  rw [List.append_assoc]
  have hlen1 : (pre ++ (s ++ post)).length = pre.length + (s ++ post).length := by
    simp
  rw [hlen1]
  rw [replAux_append_factor pat (s ++ post) pre.length pre le_rfl
    (fun a' _ _ => isPrefixOf_append_head c0 (s ++ post) hhead pat hc0 a')]
  have hlen2 : (s ++ post).length = s.length + post.length := by simp
  rw [hlen2]
  rw [replAux_append_factor pat post s.length s le_rfl
    (fun a' hs' hne => isPrefixOf_append_last cl post pat hcl a'
      ((getLast?_of_suffix a' s hs' hne).trans hsl))]
  rw [replAux_keep pat s.length s hnos]
  rw [List.append_assoc]

/-- `replace` only deletes characters (at the `str.replace` level). -/
theorem mem_of_mem_listRemoveAll (pat l : List Char) (c : Char)
    (h : c ∈ listRemoveAll pat l) : c ∈ l :=
  mem_of_mem_replAux pat l.length l c h

/-- Core of the amended C4: a JSON payload `s` (running from its first
opening brace to its last closing brace and containing no ``` fence
marker) surrounded by arbitrary prose — markdown fences and lone
backticks included — with no opening brace on the left and no closing
brace on the right, extracts to exactly what `json.loads` makes of
`s`. -/
theorem extractJsonL_concat (pre s post : List Char) (O : JVal)
    (hpre : lbrace ∉ pre)
    (hs1 : s.head? = some lbrace) (hs2 : s.getLast? = some rbrace)
    (hs3 : containsSub fenceTok s = false)
    (hpost : rbrace ∉ post)
    (hload : jloadsL s = .ok O) :
    extractJsonL (pre ++ s ++ post) = .ok O := by
  have hsne : s ≠ [] := by
    intro h
    rw [h] at hs1
    cases hs1
  have hs2len : 2 ≤ s.length := by
    rcases s with _ | ⟨c, t⟩
    · cases hs1
    · rcases t with _ | ⟨d, u⟩
      · have e1 : c = lbrace := by simpa using hs1
        have e2 : c = rbrace := by simpa using hs2
        rw [e1] at e2
        exact absurd e2 (by decide)
      · simp
  have hne : (pre ++ s ++ post).isEmpty = false := by
    rcases s with _ | ⟨c, t⟩
    · exact absurd rfl hsne
    · cases pre <;> simp [List.isEmpty]
  have eheadsp : ∀ x : List Char, (s ++ x).head? = some lbrace := by
    intro x
    rcases s with _ | ⟨c, t⟩
    · cases hs1
    · simpa using hs1
  have eheadrev : ∀ x : List Char, (s.reverse ++ x).head? = some rbrace := by
    intro x
    cases hsr : s.reverse with
    | nil => exact absurd (by simpa using congrArg List.reverse hsr) hsne
    | cons rc rt =>
      have e3 : s.reverse.head? = some rbrace := by
        rw [List.head?_reverse]
        exact hs2
      rw [hsr] at e3
      have e4 : rc = rbrace := by simpa using e3
      simp [e4]
  -- no occurrence of either fence pattern starts inside the payload
  have hnosT : ∀ a', a' <:+ s → a' ≠ [] → fenceTok.isPrefixOf a' = false :=
    containsSub_false_no_occ fenceTok s hs3
  have hnosJ : ∀ a', a' <:+ s → a' ≠ [] → fenceJsonTok.isPrefixOf a' = false := by
    intro a' hsf hne'
    cases hj : fenceJsonTok.isPrefixOf a'
    · rfl
    · exfalso
      have hsplit : fenceTok ++ "json".toList = fenceJsonTok := by decide
      have h3 : fenceTok.isPrefixOf a' = true :=
        isPrefixOf_of_append_left fenceTok "json".toList a' (by rw [hsplit]; exact hj)
      rw [hnosT a' hsf hne'] at h3
      cases h3
  -- step 1: outer strip
  have estrip1 := pyStrip_concat pre s post lbrace rbrace hs1 (by decide) hs2 (by decide)
  set pre1 := pre.dropWhile isPySpace with hpre1d
  set post1 := (post.reverse.dropWhile isPySpace).reverse with hpost1d
  have hpre1m : lbrace ∉ pre1 := fun hm => hpre (mem_of_mem_dropWhile _ pre _ hm)
  have hpost1m : rbrace ∉ post1 := fun hm =>
    hpost (List.mem_reverse.mp (mem_of_mem_dropWhile _ post.reverse _ (List.mem_reverse.mp hm)))
  -- step 2: both fence replacements factor around the payload
  have erep1 := listRemoveAll_concat fenceJsonTok pre1 s post1 lbrace rbrace
    hs1 (by decide) hs2 (by decide) hnosJ
  set pre2 := listRemoveAll fenceJsonTok pre1 with hpre2d
  set post2 := listRemoveAll fenceJsonTok post1 with hpost2d
  have erep2 := listRemoveAll_concat fenceTok pre2 s post2 lbrace rbrace
    hs1 (by decide) hs2 (by decide) hnosT
  set pre3 := listRemoveAll fenceTok pre2 with hpre3d
  set post3 := listRemoveAll fenceTok post2 with hpost3d
  have hpre3m : lbrace ∉ pre3 := fun hm =>
    hpre1m (mem_of_mem_listRemoveAll fenceJsonTok pre1 _
      (mem_of_mem_listRemoveAll fenceTok pre2 _ hm))
  have hpost3m : rbrace ∉ post3 := fun hm =>
    hpost1m (mem_of_mem_listRemoveAll fenceJsonTok post1 _
      (mem_of_mem_listRemoveAll fenceTok post2 _ hm))
  -- step 3: inner strip
  have estrip2 := pyStrip_concat pre3 s post3 lbrace rbrace hs1 (by decide) hs2 (by decide)
  set pre4 := pre3.dropWhile isPySpace with hpre4d
  set post4 := (post3.reverse.dropWhile isPySpace).reverse with hpost4d
  have hpre4m : lbrace ∉ pre4 := fun hm => hpre3m (mem_of_mem_dropWhile _ pre3 _ hm)
  have hpost4m : rbrace ∉ post4 := fun hm =>
    hpost3m (List.mem_reverse.mp
      (mem_of_mem_dropWhile _ post3.reverse _ (List.mem_reverse.mp hm)))
  -- step 4: brace positions
  have efirst : findIdxChar lbrace (pre4 ++ s ++ post4) = some pre4.length := by
    rw [List.append_assoc]
    exact findIdxChar_concat lbrace pre4 (s ++ post4) hpre4m (eheadsp post4)
  have erev : (pre4 ++ s ++ post4).reverse = post4.reverse ++ (s.reverse ++ pre4.reverse) := by
    simp [List.reverse_append]
  have elast : findIdxChar rbrace ((pre4 ++ s ++ post4).reverse) = some post4.length := by
    rw [erev]
    have := findIdxChar_concat rbrace post4.reverse (s.reverse ++ pre4.reverse)
      (fun hm => hpost4m (List.mem_reverse.mp hm)) (eheadrev pre4.reverse)
    simpa using this
  -- step 5: evaluate the extractor
  unfold extractJsonL
  rw [hne]
  simp only [Bool.false_eq_true, if_false]
  simp only [estrip1, erep1, erep2, estrip2, efirst, elast, Option.map_some']
  have harith : ¬((pre4 ++ s ++ post4).length - 1 - post4.length ≤ pre4.length) := by
    simp only [List.length_append]
    omega
  rw [if_neg harith]
  have edrop : (pre4 ++ s ++ post4).drop pre4.length = s ++ post4 := by
    rw [List.append_assoc]
    exact List.drop_left pre4 (s ++ post4)
  have etaklen : (pre4 ++ s ++ post4).length - 1 - post4.length + 1 - pre4.length
      = s.length := by
    simp only [List.length_append]
    omega
  rw [edrop, etaklen, List.take_left s post4]
  exact hload

/-- C4 amended: for every payload `s` that `json.loads` parses to `O`,
running from its first opening brace to its last closing brace and
containing no ``` fence marker, surrounded by arbitrary prose —
markdown fences included — with no `\x7b` on the left and no `\x7d` on
the right, the Response Extractor returns exactly `O`; in particular
the spec's fenced concrete example extracts to `\x7b"a": 1\x7d`. -/
theorem json_extraction_amended
    (pre s post : List Char) (O : JVal)
    (hpre : lbrace ∉ pre)
    (hs1 : s.head? = some lbrace) (hs2 : s.getLast? = some rbrace)
    (hs3 : containsSub fenceTok s = false)
    (hpost : rbrace ∉ post)
    (hload : jloadsL s = .ok O) :
    extractJsonL (pre ++ s ++ post) = .ok O ∧
    _extract_json "Here you go:\n```json\n\x7b\"a\":1\x7d\n```\nThanks"
      = Except.ok (JVal.obj [("a", JVal.int 1)]) :=
  ⟨extractJsonL_concat pre s post O hpre hs1 hs2 hs3 hpost hload, rfl⟩

/-- Witness for the amended C4, instantiated at the spec's own fenced
example: the leading prose carries the opening markdown fence and the
trailing prose the closing one. -/
theorem json_extraction_amended_witness :
    (lbrace ∉ "Here you go:\n```json\n".toList ∧
     containsSub fenceTok "\x7b\"a\":1\x7d".toList = false ∧
     jloadsL "\x7b\"a\":1\x7d".toList = Except.ok (JVal.obj [("a", JVal.int 1)])) ∧
    (extractJsonL ("Here you go:\n```json\n".toList ++ "\x7b\"a\":1\x7d".toList
        ++ "\n```\nThanks".toList)
      = Except.ok (JVal.obj [("a", JVal.int 1)]) ∧
     _extract_json "Here you go:\n```json\n\x7b\"a\":1\x7d\n```\nThanks"
      = Except.ok (JVal.obj [("a", JVal.int 1)])) :=
  ⟨⟨by decide, by decide, rfl⟩,
   json_extraction_amended "Here you go:\n```json\n".toList "\x7b\"a\":1\x7d".toList
     "\n```\nThanks".toList (JVal.obj [("a", JVal.int 1)])
     (by decide) rfl rfl (by decide) (by decide) rfl⟩
